import Mathlib

/-!
Shallow embedding of the line-validation tool in `cmd/root.go` of
roncewind/validate.

The pipeline (`validateLines`) reads a stream line by line, trims each
line, skips blank lines, calls the external validator
`record.Validate : string -> (bool, error)` on the others, and classifies
each failure reason into one of four counters by substring match.

Modelling conventions:
* A stream already split into lines by `bufio.Scanner` is a `List String`
  (the scanner strips the line terminators; `totalLines` is the number of
  scanned lines).
* The external validator `record.Validate` is an arbitrary function
  `String → Bool × Option String`; the `Option String` is the `error`
  return, `some e` holding the text of `err.Error()`.
* The Go string primitives `strings.TrimSpace`, `strings.Contains`,
  `strings.HasSuffix` and `strings.ToUpper` are modelled by executable
  functions over the character list of a `String` (`goTrimSpace`,
  `goContains`, `goHasSuffix`, `goToUpper`). `goIsSpace` is Go's
  `unicode.IsSpace` restricted to the Latin-1 white-space characters it
  recognises, and `Char.toUpper` agrees with Go's upper-casing on ASCII;
  the non-ASCII corners of those Go functions play no role in the
  comparisons performed by this program.
* `url.Parse` is not re-implemented: the source resolver `readDecision`
  receives the parsed scheme and path as separate arguments alongside the
  raw locator string (the locator-length tests in `read` run before the
  parse, mirroring the code's order).
-/

namespace Validate

/-- White-space test used by Go `strings.TrimSpace`: space, tab, newline,
carriage return, vertical tab and form feed (`unicode.IsSpace` on the
ASCII range; the rare non-ASCII Unicode spaces are not modelled). -/
def goIsSpace (c : Char) : Bool :=
  c = ' ' || c = '\t' || c = '\n' || c = '\r' || c.toNat = 11 || c.toNat = 12

/-- Go `strings.TrimSpace`: drop white space from both ends of a string. -/
def goTrimSpace (s : String) : String :=
  ⟨((s.data.dropWhile goIsSpace).reverse.dropWhile goIsSpace).reverse⟩

/-- Occurrence of the pattern `pat` as a contiguous sublist: `pat` is a
prefix of the list or occurs in its tail. -/
def containsList (pat : List Char) : List Char → Bool
  | [] => pat.isEmpty
  | c :: rest => pat.isPrefixOf (c :: rest) || containsList pat rest

/-- Go `strings.Contains s sub`: `sub` occurs as a substring of `s`. -/
def goContains (s sub : String) : Bool :=
  containsList sub.data s.data

/-- Go `strings.HasSuffix s pat`: `s` ends with `pat`. -/
def goHasSuffix (s pat : String) : Bool :=
  pat.data.isSuffixOf s.data

/-- Go `strings.ToUpper` (character-wise ASCII upper-casing). -/
def goToUpper (s : String) : String :=
  ⟨s.data.map Char.toUpper⟩

/-- The five counters of `validateLines` in `cmd/root.go`, with the
source's local-variable names (the spec calls them `totalLines`,
`missingRecordId`, `missingDataSource`, `malformed`, `otherInvalid`). -/
structure Counters where
  totalLines : Nat
  noRecordId : Nat
  noDataSource : Nat
  malformed : Nat
  badRecord : Nat
deriving DecidableEq, Repr

/-- All counters start at zero (`totalLines := 0` etc. in `validateLines`). -/
def Counters.init : Counters := ⟨0, 0, 0, 0, 0⟩

/-- The derived bad-line count reported in the summary line:
`noRecordId+noDataSource+malformed+badRecord`. -/
def badCount (t : Counters) : Nat :=
  t.noRecordId + t.noDataSource + t.malformed + t.badRecord

/-- One iteration of the `for scanner.Scan()` loop body of
`validateLines` (cmd/root.go lines 232-253): increment `totalLines`, trim,
skip blank lines, otherwise call the validator and on failure classify a
non-nil error by substring match in priority order
RECORD_ID, DATA_SOURCE, "not well formed", other. When the validator
returns `!valid` with a nil error, the `if err != nil` guard skips
classification and no failure counter changes. -/
def processLine (V : String → Bool × Option String) (t : Counters)
    (line : String) : Counters :=
  let t1 : Counters := { t with totalLines := t.totalLines + 1 }
  let str := goTrimSpace line
  if 0 < str.length then
    let res := V str
    if res.1 = false then
      match res.2 with
      | some e =>
        if goContains e "RECORD_ID" then
          { t1 with noRecordId := t1.noRecordId + 1 }
        else if goContains e "DATA_SOURCE" then
          { t1 with noDataSource := t1.noDataSource + 1 }
        else if goContains e "not well formed" then
          { t1 with malformed := t1.malformed + 1 }
        else
          { t1 with badRecord := t1.badRecord + 1 }
      | none => t1
    else t1
  else t1

/-- `validateLines` of cmd/root.go: fold the loop body over the stream's
lines starting from all-zero counters. -/
def validateLines (V : String → Bool × Option String)
    (lines : List String) : Counters :=
  lines.foldl (processLine V) Counters.init

/-- Ghost-instrumented loop body: same counter update as `processLine`,
and additionally records (in order) each string that is passed to the
external validator `record.Validate`. A blank line makes no call. -/
def scanStep (V : String → Bool × Option String)
    (s : Counters × List String) (line : String) : Counters × List String :=
  (processLine V s.1 line,
    if 0 < (goTrimSpace line).length then s.2 ++ [goTrimSpace line] else s.2)

/-- `validateLines` together with the ghost log of validator calls. -/
def validateLinesTrace (V : String → Bool × Option String)
    (lines : List String) : Counters × List String :=
  lines.foldl (scanStep V) (Counters.init, [])

/-- Pointwise sum of two counter records. -/
def addC (a b : Counters) : Counters :=
  ⟨a.totalLines + b.totalLines, a.noRecordId + b.noRecordId,
   a.noDataSource + b.noDataSource, a.malformed + b.malformed,
   a.badRecord + b.badRecord⟩

/-- Pointwise order on counter records: `leC a b` says no counter of `a`
exceeds the corresponding counter of `b`. -/
def leC (a b : Counters) : Prop :=
  a.totalLines ≤ b.totalLines ∧ a.noRecordId ≤ b.noRecordId ∧
  a.noDataSource ≤ b.noDataSource ∧ a.malformed ≤ b.malformed ∧
  a.badRecord ≤ b.badRecord

instance (a b : Counters) : Decidable (leC a b) := by
  unfold leC; infer_instance

/-- The contribution of a single line to the tally, i.e. the loop body
applied to all-zero counters. -/
def lineDelta (V : String → Bool × Option String) (line : String) : Counters :=
  processLine V Counters.init line

/-- The contribution of a single line to the bad-line count (0 or 1). -/
def lineBad (V : String → Bool × Option String) (line : String) : Nat :=
  badCount (lineDelta V line)

/-- Control-flow outcome of `read` in cmd/root.go: which helper the
dispatch selects, or which rejection branch it takes. -/
inductive ReadDecision where
  | stdinSource
  | invalidLocator
  | jsonlFile (path : String)
  | gzFile (path : String)
  | jsonlResource (url : String)
  | gzResource (url : String)
  | unrecognizedFileType
  | unrecognizedResourceType
  | unsupportedScheme (scheme : String)
deriving DecidableEq, Repr

/-- Dispatch logic of `read` (cmd/root.go lines 85-138). The raw locator
string `inputURL` is tested for emptiness (stdin) and for length below 5
before any parsing; `scheme` and `path` stand for `u.Scheme` and `u.Path`
of the successful `url.Parse inputURL` (parse failure, message 9001, is
outside this model). The suffix tests are `strings.HasSuffix(u.Path,
"jsonl")` and `strings.HasSuffix(u.Path, "gz")`, and the override tests
upper-case `fileType` before comparing with "JSONL" / "GZ". -/
def readDecision (inputURL scheme path fileType : String) : ReadDecision :=
  if inputURL.length = 0 then .stdinSource
  else if inputURL.length < 5 then .invalidLocator
  else if scheme = "file" then
    if goHasSuffix path "jsonl" = true ∨ goToUpper fileType = "JSONL" then
      .jsonlFile path
    else if goHasSuffix path "gz" = true ∨ goToUpper fileType = "GZ" then
      .gzFile path
    else .unrecognizedFileType
  else if scheme = "http" ∨ scheme = "https" then
    if goHasSuffix path "jsonl" = true ∨ goToUpper fileType = "JSONL" then
      .jsonlResource inputURL
    else if goHasSuffix path "gz" = true ∨ goToUpper fileType = "GZ" then
      .gzResource inputURL
    else .unrecognizedResourceType
  else .unsupportedScheme scheme

/-- The decoding a decision selects: plain-text JSONL lines, gzip-wrapped
lines, or the unrecognized-type rejection. `none` for decisions where the
type question never arises (stdin, short locator, bad scheme). -/
inductive Selection where
  | plainText
  | gzipDecode
  | unrecognized
deriving DecidableEq, Repr

/-- Map a dispatch decision to the decoding it selects. -/
def decisionSelection : ReadDecision → Option Selection
  | .jsonlFile _ => some .plainText
  | .jsonlResource _ => some .plainText
  | .gzFile _ => some .gzipDecode
  | .gzResource _ => some .gzipDecode
  | .unrecognizedFileType => some .unrecognized
  | .unrecognizedResourceType => some .unrecognized
  | _ => none

/-- Modelled from the spec: the file-type selection rule of spec section
4.1, stated in the spec's own words ("ends in `.jsonl` or `T == \"JSONL\"`
..."), for comparison with the dispatch the code performs. The amended
variant replaces the dotted suffixes by the code's bare suffixes and the
exact override equality by the upper-cased comparison. -/
def specSelectionDotted (path fileType : String) : Selection :=
  if goHasSuffix path ".jsonl" = true ∨ fileType = "JSONL" then .plainText
  else if goHasSuffix path ".gz" = true ∨ fileType = "GZ" then .gzipDecode
  else .unrecognized

/-- File-type selection rule as the code performs it: bare suffixes
"jsonl" / "gz" and the upper-cased override comparison. -/
def specSelection (path fileType : String) : Selection :=
  if goHasSuffix path "jsonl" = true ∨ goToUpper fileType = "JSONL" then
    .plainText
  else if goHasSuffix path "gz" = true ∨ goToUpper fileType = "GZ" then
    .gzipDecode
  else .unrecognized

/-- Outcome of `readStdin` (cmd/root.go lines 167-183): a failed
`os.Stdin.Stat()` is fatal (message 9005); when stdin's mode has the
named-pipe bit, the line pipeline runs over the piped lines; otherwise the
run fails with message 9006 without reading any line. A terminal stdin
has the named-pipe bit clear. -/
inductive StdinOutcome where
  | fatalStat
  | validated (tally : Counters)
  | noPipe
deriving DecidableEq, Repr

/-- `readStdin` of cmd/root.go: `statOk` is whether `os.Stdin.Stat()`
succeeded, `isNamedPipe` whether `info.Mode()&os.ModeNamedPipe ==
os.ModeNamedPipe`, and `lines` the lines available on the pipe. -/
def readStdinGo (statOk isNamedPipe : Bool)
    (V : String → Bool × Option String) (lines : List String) : StdinOutcome :=
  if statOk = false then .fatalStat
  else if isNamedPipe then .validated (validateLines V lines)
  else .noPipe

/-- Result of `read` and its helpers for a given dispatch decision:
whether `read` returns true, and the numeric id of the diagnostic logged
on the failing paths (messages 2002-2004, 9002-9010 of cmd/root.go).
`statOk`/`isNamedPipe` describe stdin, `openOk` whether the file open or
HTTP GET succeeded, `gzipOk` whether `gzip.NewReader` succeeded. -/
def readRunResult (d : ReadDecision)
    (statOk isNamedPipe openOk gzipOk : Bool) : Bool × Option Nat :=
  match d with
  | .stdinSource =>
      if statOk = false then (false, some 9005)
      else if isNamedPipe then (true, none)
      else (false, some 9006)
  | .invalidLocator => (false, some 2002)
  | .jsonlFile _ => if openOk then (true, none) else (false, some 9004)
  | .gzFile _ =>
      if openOk = false then (false, some 9007)
      else if gzipOk = false then (false, some 9008)
      else (true, none)
  | .jsonlResource _ => if openOk then (true, none) else (false, some 9003)
  | .gzResource _ =>
      if openOk = false then (false, some 9009)
      else if gzipOk = false then (false, some 9010)
      else (true, none)
  | .unrecognizedFileType => (false, some 2003)
  | .unrecognizedResourceType => (false, some 2004)
  | .unsupportedScheme _ => (false, some 9002)

/-- Process exit code of `main`/`Execute` (cmd/root.go lines 77-82): the
command's `Run` hook is `func(cmd, args)` with no error return — when
`read()` fails it only prints the help text — so `RootCmd.Execute()`
returns a non-nil error (and `os.Exit(1)` runs) only when the CLI
framework itself fails, e.g. on unparsable flags, never because of a
failed or fatal validation run. -/
def exitCodeAfterRun (cliParseOk : Bool) : Nat :=
  if cliParseOk then 0 else 1

/-! Shared lemmas about the pipeline. -/

/-- The loop body only adds to the incoming counters the contribution of
the current line. -/
lemma processLine_delta (V : String → Bool × Option String) (t : Counters)
    (line : String) : processLine V t line = addC t (lineDelta V line) := by
  unfold lineDelta processLine
  by_cases h : 0 < (goTrimSpace line).length
  · simp only [if_pos h]
    rcases hV : V (goTrimSpace line) with ⟨valid, err⟩
    cases valid
    · cases err with
      | none => simp [addC, Counters.init]
      | some e =>
        by_cases h1 : goContains e "RECORD_ID"
        · simp [h1, addC, Counters.init]
        · by_cases h2 : goContains e "DATA_SOURCE"
          · simp [h1, h2, addC, Counters.init]
          · by_cases h3 : goContains e "not well formed"
            · simp [h1, h2, h3, addC, Counters.init]
            · simp [h1, h2, h3, addC, Counters.init]
    · simp [addC, Counters.init]
  · simp [if_neg h, addC, Counters.init]

lemma addC_init_right (t : Counters) : addC t Counters.init = t := by
  cases t; simp [addC, Counters.init]

lemma addC_init_left (t : Counters) : addC Counters.init t = t := by
  cases t; simp [addC, Counters.init]

lemma addC_assoc (a b c : Counters) :
    addC (addC a b) c = addC a (addC b c) := by
  simp [addC, Nat.add_assoc]

lemma addC_totalLines (a b : Counters) :
    (addC a b).totalLines = a.totalLines + b.totalLines := rfl

lemma badCount_addC (a b : Counters) :
    badCount (addC a b) = badCount a + badCount b := by
  simp [badCount, addC]; omega

/-- Folding the loop body from any starting counters adds the tally of
the lines to the start. -/
lemma foldl_processLine (V : String → Bool × Option String) :
    ∀ (ls : List String) (t : Counters),
      ls.foldl (processLine V) t = addC t (validateLines V ls)
  | [], t => (addC_init_right t).symm
  | l :: ls, t => by
    rw [List.foldl_cons, foldl_processLine V ls (processLine V t l),
      processLine_delta V t l, addC_assoc]
    congr 1
    have h2 : validateLines V (l :: ls) =
        List.foldl (processLine V) (processLine V Counters.init l) ls := rfl
    rw [h2, foldl_processLine V ls (processLine V Counters.init l),
      processLine_delta V Counters.init l, addC_init_left]

lemma validateLines_cons (V : String → Bool × Option String) (l : String)
    (ls : List String) :
    validateLines V (l :: ls) = addC (lineDelta V l) (validateLines V ls) := by
  have h : validateLines V (l :: ls) =
      List.foldl (processLine V) (processLine V Counters.init l) ls := rfl
  rw [h, foldl_processLine V ls (processLine V Counters.init l),
    processLine_delta V Counters.init l, addC_init_left]

lemma validateLines_append (V : String → Bool × Option String)
    (xs ys : List String) :
    validateLines V (xs ++ ys) =
      addC (validateLines V xs) (validateLines V ys) := by
  have h : validateLines V (xs ++ ys) =
      (xs ++ ys).foldl (processLine V) Counters.init := rfl
  rw [h, List.foldl_append, foldl_processLine]
  rfl

/-- A single line contributes exactly one to `totalLines`. -/
lemma lineDelta_totalLines (V : String → Bool × Option String)
    (line : String) : (lineDelta V line).totalLines = 1 := by
  unfold lineDelta processLine
  by_cases h : 0 < (goTrimSpace line).length
  · simp only [if_pos h]
    rcases hV : V (goTrimSpace line) with ⟨valid, err⟩
    cases valid
    · cases err with
      | none => rfl
      | some e =>
        by_cases h1 : goContains e "RECORD_ID"
        · simp [h1, Counters.init]
        · by_cases h2 : goContains e "DATA_SOURCE"
          · simp [h1, h2, Counters.init]
          · by_cases h3 : goContains e "not well formed"
            · simp [h1, h2, h3, Counters.init]
            · simp [h1, h2, h3, Counters.init]
    · rfl
  · simp [if_neg h, Counters.init]

/-- A single line contributes one to the bad-line count exactly when it
is non-blank after trimming and the validator rejects it with a non-nil
reason; otherwise it contributes nothing. -/
lemma lineBad_cases (V : String → Bool × Option String) (line : String) :
    (lineBad V line = 1 ∧ 0 < (goTrimSpace line).length ∧
       (V (goTrimSpace line)).1 = false ∧ (V (goTrimSpace line)).2 ≠ none) ∨
    (lineBad V line = 0 ∧
      ¬ (0 < (goTrimSpace line).length ∧ (V (goTrimSpace line)).1 = false ∧
         (V (goTrimSpace line)).2 ≠ none)) := by
  unfold lineBad lineDelta processLine
  by_cases h : 0 < (goTrimSpace line).length
  · simp only [if_pos h]
    rcases hV : V (goTrimSpace line) with ⟨valid, err⟩
    cases valid
    · cases err with
      | none => right; simp [hV, badCount, Counters.init]
      | some e =>
        left
        refine ⟨?_, h, by simp [hV], by simp [hV]⟩
        by_cases h1 : goContains e "RECORD_ID"
        · simp [h1, badCount, Counters.init]
        · by_cases h2 : goContains e "DATA_SOURCE"
          · simp [h1, h2, badCount, Counters.init]
          · by_cases h3 : goContains e "not well formed"
            · simp [h1, h2, h3, badCount, Counters.init]
            · simp [h1, h2, h3, badCount, Counters.init]
    · right; simp [hV, badCount, Counters.init]
  · right
    simp only [if_neg h]
    exact ⟨by simp [badCount, Counters.init], by tauto⟩

lemma lineBad_le_one (V : String → Bool × Option String) (line : String) :
    lineBad V line ≤ 1 := by
  rcases lineBad_cases V line with ⟨h, _⟩ | ⟨h, _⟩ <;> omega

/-- Every line, blank or not, valid or not, counts once in `totalLines`. -/
lemma totalLines_eq_length (V : String → Bool × Option String)
    (lines : List String) :
    (validateLines V lines).totalLines = lines.length := by
  induction lines with
  | nil => rfl
  | cons l ls ih =>
    rw [validateLines_cons, addC_totalLines, lineDelta_totalLines, ih,
      List.length_cons]
    omega

/-- The bad-line count of a run is the sum of the per-line
contributions. -/
lemma badCount_validateLines (V : String → Bool × Option String)
    (lines : List String) :
    badCount (validateLines V lines) =
      (lines.map (lineBad V)).sum := by
  induction lines with
  | nil => rfl
  | cons l ls ih =>
    rw [validateLines_cons, badCount_addC, ih, List.map_cons, List.sum_cons]
    rfl

/-- The ghost trace decomposes: the counters evolve as in `validateLines`
and the validator-call log extends by the trimmed non-blank lines. -/
lemma scan_decomp (V : String → Bool × Option String) :
    ∀ (lines : List String) (t : Counters) (acc : List String),
      lines.foldl (scanStep V) (t, acc) =
        (lines.foldl (processLine V) t,
         acc ++ (lines.filter
           (fun l => 0 < (goTrimSpace l).length)).map goTrimSpace)
  | [], t, acc => by simp
  | l :: ls, t, acc => by
    rw [List.foldl_cons, List.foldl_cons]
    by_cases h : 0 < (goTrimSpace l).length
    · rw [show scanStep V (t, acc) l =
            (processLine V t l, acc ++ [goTrimSpace l]) by
          simp [scanStep, h]]
      rw [scan_decomp V ls (processLine V t l) (acc ++ [goTrimSpace l])]
      simp [h]
    · rw [show scanStep V (t, acc) l = (processLine V t l, acc) by
          simp [scanStep, h]]
      rw [scan_decomp V ls (processLine V t l) acc]
      simp [h]

/-- The per-line bad contributions sum to at most one per line. -/
lemma sum_lineBad_le (V : String → Bool × Option String)
    (lines : List String) :
    (lines.map (lineBad V)).sum ≤ lines.length := by
  induction lines with
  | nil => simp
  | cons l ls ih =>
    simp only [List.map_cons, List.sum_cons, List.length_cons]
    have := lineBad_le_one V l
    omega

/-- For locators of length at least 5 carrying one of the three handled
schemes, the dispatch of `read` selects the decoding given by the
suffix/override rule, identically on the `file` and `http(s)` arms. -/
lemma selection_of_readDecision (url scheme path T : String)
    (h5 : 5 ≤ url.length)
    (hs : scheme = "file" ∨ scheme = "http" ∨ scheme = "https") :
    decisionSelection (readDecision url scheme path T) =
      some (specSelection path T) := by
  have h0 : ¬ url.length = 0 := by omega
  have h1 : ¬ url.length < 5 := by omega
  unfold readDecision specSelection
  rw [if_neg h0, if_neg h1]
  rcases hs with h | h | h
  · rw [if_pos h]
    by_cases hj : goHasSuffix path "jsonl" = true ∨ goToUpper T = "JSONL"
    · rw [if_pos hj, if_pos hj]; rfl
    · rw [if_neg hj, if_neg hj]
      by_cases hg : goHasSuffix path "gz" = true ∨ goToUpper T = "GZ"
      · rw [if_pos hg, if_pos hg]; rfl
      · rw [if_neg hg, if_neg hg]; rfl
  · have hnf : ¬ scheme = "file" := by rw [h]; decide
    rw [if_neg hnf, if_pos (Or.inl h)]
    by_cases hj : goHasSuffix path "jsonl" = true ∨ goToUpper T = "JSONL"
    · rw [if_pos hj, if_pos hj]; rfl
    · rw [if_neg hj, if_neg hj]
      by_cases hg : goHasSuffix path "gz" = true ∨ goToUpper T = "GZ"
      · rw [if_pos hg, if_pos hg]; rfl
      · rw [if_neg hg, if_neg hg]; rfl
  · have hnf : ¬ scheme = "file" := by rw [h]; decide
    rw [if_neg hnf, if_pos (Or.inr h)]
    by_cases hj : goHasSuffix path "jsonl" = true ∨ goToUpper T = "JSONL"
    · rw [if_pos hj, if_pos hj]; rfl
    · rw [if_neg hj, if_neg hj]
      by_cases hg : goHasSuffix path "gz" = true ∨ goToUpper T = "GZ"
      · rw [if_pos hg, if_pos hg]; rfl
      · rw [if_neg hg, if_neg hg]; rfl

/-! Claims. -/

/-- C1, counterexample: on a one-line stream whose validator reports
failure with a nil error, `validateLines` leaves `badRecord` (the
spec's `otherInvalid`) at 0, not 1 as the claim requires — the line is
not counted in the bad-line count. -/
theorem C1_cx_nil_reason_not_counted :
    ((fun _ => ((false : Bool), (none : Option String))) "rec")
      = (false, none) ∧
    (validateLines (fun _ => (false, none)) ["rec"]).badRecord = 0 ∧
    badCount (validateLines (fun _ => (false, none)) ["rec"]) = 0 ∧
    (validateLines (fun _ => (false, none)) ["rec"]).totalLines = 1 := by
  decide

/-- C1, amended: when the validator reports failure (`valid = false`)
with a nil error on a non-blank line, the `if err != nil` guard in
`validateLines` skips classification entirely, so no failure counter —
in particular not `otherInvalid`/`badRecord` — is incremented; only
`totalLines` advances. -/
theorem C1_nil_reason_uncounted (V : String → Bool × Option String)
    (t : Counters) (line : String)
    (hb : 0 < (goTrimSpace line).length)
    (hV : V (goTrimSpace line) = (false, none)) :
    processLine V t line = { t with totalLines := t.totalLines + 1 } := by
  simp [processLine, hb, hV]

/-- C1, witness for the amended theorem at a concrete input. -/
theorem C1_nil_reason_uncounted_witness :
    processLine (fun _ => (false, none)) Counters.init "z" =
      { Counters.init with totalLines := 1 } :=
  C1_nil_reason_uncounted (fun _ => (false, none)) Counters.init "z"
    (by decide) rfl

/-- C2, counterexample: the invalid-locator run on `"ht"` logs
diagnostic 2002 and makes `read` return false, yet the process exit code
is 0 (the `Run` hook returns no error, so `Execute` never reaches
`os.Exit(1)` for a fatal validation-run error) — not the non-zero
outcome the claim requires. -/
theorem C2_cx_fatal_error_exits_zero :
    readDecision "ht" "x" "y" "" = .invalidLocator ∧
    readRunResult .invalidLocator true true true true =
      (false, some 2002) ∧
    exitCodeAfterRun true = 0 := by
  decide

/-- C2, amended: every fatal run error (invalid locator, unsupported
scheme, unrecognized type, no piped stdin, source-open failure,
decompression failure) logs a diagnostic message and makes `read` return
false, but the process outcome is zero just as for runs with only
per-line failures; a non-zero outcome arises only when the CLI framework
itself fails before the run. -/
theorem C2_fatal_diagnostic_zero_exit (d : ReadDecision)
    (statOk isNamedPipe openOk gzipOk : Bool)
    (h : (readRunResult d statOk isNamedPipe openOk gzipOk).1 = false) :
    (readRunResult d statOk isNamedPipe openOk gzipOk).2 ≠ none ∧
    exitCodeAfterRun true = 0 := by
  refine ⟨?_, rfl⟩
  cases d <;> cases statOk <;> cases isNamedPipe <;> cases openOk <;>
    cases gzipOk <;> simp_all [readRunResult]

/-- C2, witness for the amended theorem at a concrete fatal error. -/
theorem C2_fatal_diagnostic_zero_exit_witness :
    (readRunResult .invalidLocator true true true true).2 ≠ none ∧
    exitCodeAfterRun true = 0 :=
  C2_fatal_diagnostic_zero_exit .invalidLocator true true true true rfl

/-- C3, counterexample: the suffix tests of `read` use the bare strings
"jsonl" and "gz", not ".jsonl"/".gz", and the override is upper-cased
before comparison. The path "/afoojsonl" matches neither dotted suffix
and has an empty override, so the claim's rule gives
`UnrecognizedTypeError`, but the code selects plain-text decoding; the
override "jsonl" likewise differs from the claim's literal "JSONL" yet
selects plain-text decoding for the suffix-less path "/a.txt". -/
theorem C3_cx_dotted_suffix_rule_diverges :
    specSelectionDotted "/afoojsonl" "" = .unrecognized ∧
    readDecision "file:///afoojsonl" "file" "/afoojsonl" "" =
      .jsonlFile "/afoojsonl" ∧
    specSelectionDotted "/a.txt" "jsonl" = .unrecognized ∧
    readDecision "file:///a.txt" "file" "/a.txt" "jsonl" =
      .jsonlFile "/a.txt" := by
  decide

/-- C3, amended: for every locator of length at least 5 with scheme
file, http, or https, the run selects plain-text line decoding when the
path ends in "jsonl" (dot not required) or the upper-cased override is
"JSONL"; otherwise gzip-decompressed decoding when the path ends in "gz"
or the upper-cased override is "GZ"; otherwise it takes the
unrecognized-type rejection branch and no validation is performed. -/
theorem C3_type_selection (url scheme path T : String)
    (h5 : 5 ≤ url.length)
    (hs : scheme = "file" ∨ scheme = "http" ∨ scheme = "https") :
    decisionSelection (readDecision url scheme path T) =
      some (specSelection path T) :=
  selection_of_readDecision url scheme path T h5 hs

/-- C3, witness for the amended theorem at a concrete gzip input. -/
theorem C3_type_selection_witness :
    decisionSelection (readDecision "file:///x.gz" "file" "/x.gz" "") =
      some (specSelection "/x.gz" "") :=
  C3_type_selection "file:///x.gz" "file" "/x.gz" "" (by decide)
    (Or.inl rfl)

/-- C4: for a failing non-blank line with reason text `e`, the loop body
classifies by substring match in fixed priority order: a reason
containing "RECORD_ID" increments `noRecordId` (even if it also contains
"DATA_SOURCE" or "not well formed"); else one containing "DATA_SOURCE"
increments `noDataSource`; else one containing "not well formed"
increments `malformed`; else `badRecord` is incremented. -/
theorem C4_classification_priority (V : String → Bool × Option String)
    (t : Counters) (line e : String)
    (hb : 0 < (goTrimSpace line).length)
    (hV : V (goTrimSpace line) = (false, some e)) :
    processLine V t line =
      if goContains e "RECORD_ID" then
        { t with totalLines := t.totalLines + 1,
                 noRecordId := t.noRecordId + 1 }
      else if goContains e "DATA_SOURCE" then
        { t with totalLines := t.totalLines + 1,
                 noDataSource := t.noDataSource + 1 }
      else if goContains e "not well formed" then
        { t with totalLines := t.totalLines + 1,
                 malformed := t.malformed + 1 }
      else
        { t with totalLines := t.totalLines + 1,
                 badRecord := t.badRecord + 1 } := by
  simp [processLine, hb, hV]

/-- C4, witness: a reason containing both "RECORD_ID" and "DATA_SOURCE"
increments `noRecordId` (first rule wins). -/
theorem C4_classification_priority_witness :
    processLine (fun _ => (false, some "no RECORD_ID for DATA_SOURCE"))
      Counters.init "x" = ⟨1, 1, 0, 0, 0⟩ := by
  rw [C4_classification_priority
    (fun _ => (false, some "no RECORD_ID for DATA_SOURCE"))
    Counters.init "x" "no RECORD_ID for DATA_SOURCE" (by decide) rfl]
  decide

/-- C5, counterexample: with a validator that rejects every line with a
nil error, both lines of the stream fail validation yet no failure
counter is incremented, so a failing line does not always increment
exactly one failure counter. -/
theorem C5_cx_failing_line_without_counter :
    ((fun _ => ((false : Bool), (none : Option String))) "a").1
      = false ∧
    badCount (validateLines (fun _ => (false, none)) ["a", "b"]) = 0 ∧
    (validateLines (fun _ => (false, none)) ["a", "b"]).totalLines
      = 2 := by
  decide

/-- C5, amended: the sum of the four failure counters never exceeds
`totalLines`; no counter is ever decremented by a loop step; each
failing line whose validator reason is non-nil increments the failure
sum by exactly one (a failing line with nil reason increments none); and
equality of the sum with `totalLines` holds only when every line is
non-blank and invalid. -/
theorem C5_tally_invariants (V : String → Bool × Option String)
    (lines : List String) (t : Counters) (line : String) (e : String) :
    badCount (validateLines V lines) ≤
      (validateLines V lines).totalLines ∧
    leC t (processLine V t line) ∧
    (0 < (goTrimSpace line).length →
      V (goTrimSpace line) = (false, some e) →
      badCount (processLine V t line) = badCount t + 1) ∧
    (badCount (validateLines V lines) =
        (validateLines V lines).totalLines →
      ∀ l ∈ lines, 0 < (goTrimSpace l).length ∧
        (V (goTrimSpace l)).1 = false) := by
  refine ⟨?_, ?_, ?_, ?_⟩
  · rw [badCount_validateLines, totalLines_eq_length]
    exact sum_lineBad_le V lines
  · rw [processLine_delta]
    simp only [leC, addC]
    refine ⟨?_, ?_, ?_, ?_, ?_⟩ <;> omega
  · intro hb hV
    rw [processLine_delta, badCount_addC]
    have e1 : badCount (lineDelta V line) = lineBad V line := rfl
    rw [e1]
    rcases lineBad_cases V line with ⟨h1, _⟩ | ⟨_, h2⟩
    · omega
    · exact absurd ⟨hb, by rw [hV], by rw [hV]; simp⟩ h2
  · rw [badCount_validateLines, totalLines_eq_length]
    induction lines with
    | nil => intro _ l hl; cases hl
    | cons x ls ih =>
      intro heq l hl
      simp only [List.map_cons, List.sum_cons, List.length_cons] at heq
      have hx := lineBad_le_one V x
      have hs := sum_lineBad_le V ls
      rcases List.mem_cons.mp hl with rfl | hmem
      · rcases lineBad_cases V l with ⟨_, h2, h3, _⟩ | ⟨h1, _⟩
        · exact ⟨h2, h3⟩
        · omega
      · exact ih (by omega) l hmem

/-- C5, witness for the amended theorem at concrete inputs. -/
theorem C5_tally_invariants_witness :
    badCount (processLine (fun _ => (false, some "BAD")) Counters.init "a")
      = badCount Counters.init + 1 ∧
    (0 < (goTrimSpace "a").length ∧
      ((fun (_ : String) => ((false : Bool), some "BAD")) (goTrimSpace "a")).1
        = false) := by
  constructor
  · exact (C5_tally_invariants (fun _ => (false, some "BAD")) []
      Counters.init "a" "BAD").2.2.1 (by decide) rfl
  · exact (C5_tally_invariants (fun _ => (false, some "BAD")) ["a"]
      Counters.init "a" "BAD").2.2.2 (by decide) "a" (by simp)

/-- C6: every scanned line, blank or not, increments `totalLines`; the
strings handed to the external validator are exactly the trimmed
non-blank lines, so a line whose trimmed form is empty is never passed
to the validator; and the loop body on a blank line changes nothing but
`totalLines`. -/
theorem C6_blank_lines_only_counted (V : String → Bool × Option String)
    (lines : List String) :
    (validateLines V lines).totalLines = lines.length ∧
    (validateLinesTrace V lines).2 =
      (lines.filter (fun l => 0 < (goTrimSpace l).length)).map
        goTrimSpace ∧
    ∀ (t : Counters) (line : String), (goTrimSpace line).length = 0 →
      processLine V t line = { t with totalLines := t.totalLines + 1 } := by
  refine ⟨totalLines_eq_length V lines, ?_, ?_⟩
  · have h := scan_decomp V lines Counters.init []
    unfold validateLinesTrace
    rw [h]
    simp
  · intro t line h
    simp [processLine, h]

/-- C6, witness at a concrete blank line. -/
theorem C6_blank_lines_only_counted_witness :
    (validateLines (fun _ => (true, none)) ["a", " "]).totalLines = 2 ∧
    processLine (fun _ => (true, none)) Counters.init " " =
      { Counters.init with totalLines := 1 } := by
  refine ⟨(C6_blank_lines_only_counted (fun _ => (true, none))
    ["a", " "]).1, ?_⟩
  exact (C6_blank_lines_only_counted (fun _ => (true, none))
    ["a", " "]).2.2 Counters.init " " (by decide)

/-- C7: every non-empty locator of length below 5 is rejected as an
invalid locator regardless of any scheme, path or override — the
rejection happens before the locator is parsed as a URI (the result does
not depend on the `scheme`/`path` arguments standing for the parse) and
before any I/O helper is selected. -/
theorem C7_short_locator_rejected (url scheme path fileType : String)
    (h0 : 0 < url.length) (h5 : url.length < 5) :
    readDecision url scheme path fileType = .invalidLocator := by
  unfold readDecision
  rw [if_neg (by omega), if_pos h5]

/-- C7, witness at the spec's scenario locator "ht". -/
theorem C7_short_locator_rejected_witness :
    readDecision "ht" "a" "b" "c" = .invalidLocator :=
  C7_short_locator_rejected "ht" "a" "b" "c" (by decide) (by decide)

/-- C8: an empty locator selects the standard-input source; when stdin's
stat succeeds and the named-pipe mode bit is set the piped lines are
validated, and when stdin is not a named pipe (in particular a terminal)
the run fails on the no-pipe branch, whose outcome carries no tally —
no line is read. -/
theorem C8_stdin_no_pipe (scheme path fileType : String)
    (V : String → Bool × Option String) (lines : List String) :
    readDecision "" scheme path fileType = .stdinSource ∧
    readStdinGo true true V lines = .validated (validateLines V lines) ∧
    readStdinGo true false V lines = .noPipe :=
  ⟨rfl, rfl, rfl⟩

/-- C9: the tally of a concatenated stream is the pointwise sum of the
tallies of its parts, and `totalLines` counts every line of both parts:
the pipeline consumes the entire stream, each line is classified
independently of the lines before it, and an invalid line never prevents
later lines from being validated. -/
theorem C9_stream_fully_consumed (V : String → Bool × Option String)
    (xs ys : List String) :
    validateLines V (xs ++ ys) =
      addC (validateLines V xs) (validateLines V ys) ∧
    (validateLines V (xs ++ ys)).totalLines = xs.length + ys.length := by
  refine ⟨validateLines_append V xs ys, ?_⟩
  rw [totalLines_eq_length, List.length_append]

/-- C10: the file-type override is compared only through its upper-cased
form, so two overrides with the same upper-casing produce identical
dispatch decisions; an override upper-casing to "JSONL" selects
plain-text decoding on every valid file/http/https locator, and one
upper-casing to "GZ" selects gzip decoding whenever the "jsonl" suffix
rule does not fire first — exactly as the canonical "JSONL"/"GZ" values
do. -/
theorem C10_case_insensitive_override (url scheme path T Tc : String)
    (h : goToUpper T = goToUpper Tc) :
    readDecision url scheme path T = readDecision url scheme path Tc ∧
    (goToUpper T = "JSONL" → 5 ≤ url.length →
      scheme = "file" ∨ scheme = "http" ∨ scheme = "https" →
      decisionSelection (readDecision url scheme path T) =
        some .plainText) ∧
    (goToUpper T = "GZ" → 5 ≤ url.length →
      ¬ goHasSuffix path "jsonl" = true →
      scheme = "file" ∨ scheme = "http" ∨ scheme = "https" →
      decisionSelection (readDecision url scheme path T) =
        some .gzipDecode) := by
  refine ⟨by unfold readDecision; rw [h], ?_, ?_⟩
  · intro hT h5 hs
    rw [selection_of_readDecision url scheme path T h5 hs]
    unfold specSelection
    rw [if_pos (Or.inr hT)]
  · intro hT h5 hsfx hs
    rw [selection_of_readDecision url scheme path T h5 hs]
    unfold specSelection
    have hnj : ¬ (goHasSuffix path "jsonl" = true ∨
        goToUpper T = "JSONL") := by
      rintro (hc | hc)
      · exact hsfx hc
      · rw [hT] at hc
        exact absurd hc (by decide)
    rw [if_neg hnj, if_pos (Or.inr hT)]

/-- C10, witness: the override "Jsonl" dispatches identically to the
canonical "JSONL" and selects plain-text decoding. -/
theorem C10_case_insensitive_override_witness :
    readDecision "file:///a.txt" "file" "/a.txt" "Jsonl" =
      readDecision "file:///a.txt" "file" "/a.txt" "JSONL" ∧
    decisionSelection
      (readDecision "file:///a.txt" "file" "/a.txt" "Jsonl") =
      some Selection.plainText := by
  have h := C10_case_insensitive_override "file:///a.txt" "file"
    "/a.txt" "Jsonl" "JSONL" (by decide)
  exact ⟨h.1, h.2.1 (by decide) (by decide) (Or.inl rfl)⟩

end Validate
